import Mathlib

/-!
Verification of `niri-compact` (src/main.rs), a one-shot client that
rearranges the windows of the focused niri workspace into balanced columns.

The development shallowly embeds the program:
* `num_columns` mirrors `fn num_columns` (the Rust code computes
  `(n as f64).sqrt().ceil() as usize`; window counts are tiny compared to
  the 2^52 range, where `f64` square roots of naturals are exact enough
  that the ceiling agrees with the exact `ceil_sqrt` over ℕ used here, and
  the `as f64` conversion is exact);
* `Window`, `Workspace`, `Action`, `Response`, `Reply` mirror the fields
  and variants of the `niri_ipc` types that the program uses;
* `get_windows` / `get_workspaces` mirror the reply validation of
  `NiriClient::get_windows` / `NiriClient::get_workspaces`;
* `mainPlan` mirrors the sequence of console prints and compositor
  actions of `fn main` after a successful state query, and `mainRun`
  executes that plan against a `Compositor` environment supplying the
  transport-level result of each protocol call, mirroring the `?` /
  `let _ =` error handling of `fn main`.

`column_width` is `100.0 / num_columns as f64` in the source; it is
modelled exactly as a rational, `(100 : ℚ) / c`.
-/

namespace NiriCompact

/-- Upward search for the least `k ≥ start` with `n ≤ k * k`, with enough
fuel to reach it; returns `start + fuel` if the fuel runs out. -/
def ceil_sqrt_from (n : Nat) : Nat → Nat → Nat
  | 0, start => start
  | fuel + 1, start => if n ≤ start * start then start else ceil_sqrt_from n fuel (start + 1)

/-- Exact ceiling square root over ℕ: the least `k` with `n ≤ k * k`.
Models `(n as f64).sqrt().ceil() as usize` from `fn num_columns`. -/
def ceil_sqrt (n : Nat) : Nat :=
  ceil_sqrt_from n (n + 1) 0

/-- `fn num_columns(window_count: usize) -> usize`. -/
def num_columns (window_count : Nat) : Nat :=
  if window_count = 0 then 1
  else min (ceil_sqrt window_count) window_count

theorem ceil_sqrt_from_spec (n : Nat) :
    ∀ fuel start, (∃ j, start ≤ j ∧ j < start + fuel ∧ n ≤ j * j) →
      n ≤ ceil_sqrt_from n fuel start * ceil_sqrt_from n fuel start ∧
      ∀ m, start ≤ m → n ≤ m * m → ceil_sqrt_from n fuel start ≤ m := by
  intro fuel
  induction fuel with
  | zero =>
    intro start ⟨j, hj1, hj2, _⟩
    omega
  | succ fuel ih =>
    intro start ⟨j, hj1, hj2, hj3⟩
    by_cases h : n ≤ start * start
    · rw [ceil_sqrt_from, if_pos h]
      exact ⟨h, fun m hm _ => hm⟩
    · rw [ceil_sqrt_from, if_neg h]
      have hjne : j ≠ start := by
        intro he; rw [he] at hj3; exact h hj3
      have hrec := ih (start + 1) ⟨j, by omega, by omega, hj3⟩
      refine ⟨hrec.1, fun m hm hmm => ?_⟩
      have hmne : m ≠ start := by
        intro he; rw [he] at hmm; exact h hmm
      exact hrec.2 m (by omega) hmm

theorem ceil_sqrt_spec (n : Nat) :
    n ≤ ceil_sqrt n * ceil_sqrt n ∧ ∀ k, n ≤ k * k → ceil_sqrt n ≤ k := by
  have h := ceil_sqrt_from_spec n (n + 1) 0 ?_
  · exact ⟨h.1, fun k hk => h.2 k (Nat.zero_le k) hk⟩
  · rcases Nat.eq_zero_or_pos n with h0 | h1
    · exact ⟨0, by omega, by omega, by omega⟩
    · exact ⟨n, by omega, by omega, Nat.le_mul_of_pos_left n h1⟩

theorem ceil_sqrt_pos (n : Nat) (h : 1 ≤ n) : 1 ≤ ceil_sqrt n := by
  rcases ceil_sqrt_spec n with ⟨h1, _⟩
  by_contra hc
  push_neg at hc
  interval_cases h' : ceil_sqrt n
  · simp [h'] at h1; omega

theorem ceil_sqrt_le_self (n : Nat) (h : 1 ≤ n) : ceil_sqrt n ≤ n := by
  rcases ceil_sqrt_spec n with ⟨_, h2⟩
  exact h2 n (Nat.le_mul_of_pos_left n h)

theorem num_columns_eq_ceil_sqrt (n : Nat) (h : 1 ≤ n) :
    num_columns n = ceil_sqrt n := by
  unfold num_columns
  rw [if_neg (by omega)]
  exact Nat.min_eq_left (ceil_sqrt_le_self n h)

theorem num_columns_pos (n : Nat) : 1 ≤ num_columns n := by
  unfold num_columns
  by_cases h : n = 0
  · simp [h]
  · rw [if_neg h]
    have h1 : 1 ≤ n := by omega
    exact le_min (ceil_sqrt_pos n h1) h1

theorem num_columns_le (n : Nat) (h : 1 ≤ n) : num_columns n ≤ n := by
  unfold num_columns
  rw [if_neg (by omega)]
  exact Nat.min_le_right _ _

/-- `let windows_per_column = (window_count + num_columns - 1) / num_columns;`
from `fn main` (ceiling division over the natural numbers). -/
def windows_per_column (window_count cols : Nat) : Nat :=
  (window_count + cols - 1) / cols

theorem wpc_pos (n c : Nat) (hn : 1 ≤ n) (hc : 1 ≤ c) :
    1 ≤ windows_per_column n c := by
  unfold windows_per_column
  rw [Nat.le_div_iff_mul_le (by omega)]
  omega

theorem le_cols_mul_wpc (n c : Nat) (hc : 1 ≤ c) :
    n ≤ c * windows_per_column n c := by
  unfold windows_per_column
  have hdm := Nat.div_add_mod (n + c - 1) c
  have hmod : (n + c - 1) % c < c := Nat.mod_lt _ hc
  omega

theorem wpc_le_cols (n c : Nat) (hc : 1 ≤ c) (hn : n ≤ c * c) :
    windows_per_column n c ≤ c := by
  unfold windows_per_column
  have hlt : (n + c - 1) / c < c + 1 := by
    rw [Nat.div_lt_iff_lt_mul (by omega : 0 < c)]
    have hexp : (c + 1) * c = c * c + c := by ring
    omega
  omega

theorem last_col_lt (n : Nat) (hn : 1 ≤ n) :
    (num_columns n - 1) * windows_per_column n (num_columns n) < n := by
  have hc1 : 1 ≤ num_columns n := num_columns_pos n
  have hcs : num_columns n = ceil_sqrt n := num_columns_eq_ceil_sqrt n hn
  have hspec := ceil_sqrt_spec n
  have hnc2 : n ≤ num_columns n * num_columns n := by rw [hcs]; exact hspec.1
  have hmin : ∀ k, n ≤ k * k → num_columns n ≤ k := by rw [hcs]; exact hspec.2
  have hprev : (num_columns n - 1) * (num_columns n - 1) < n := by
    by_contra hle
    push_neg at hle
    have := hmin (num_columns n - 1) hle
    omega
  rcases Nat.lt_or_ge (windows_per_column n (num_columns n)) (num_columns n) with hwlt | hwge
  · calc (num_columns n - 1) * windows_per_column n (num_columns n)
        ≤ (num_columns n - 1) * (num_columns n - 1) :=
          Nat.mul_le_mul_left _ (by omega)
      _ < n := hprev
  · have hwle : windows_per_column n (num_columns n) ≤ num_columns n :=
      wpc_le_cols n (num_columns n) hc1 hnc2
    have hweq : windows_per_column n (num_columns n) = num_columns n :=
      le_antisymm hwle hwge
    have hle2 : num_columns n * num_columns n ≤ n + num_columns n - 1 :=
      (Nat.le_div_iff_mul_le (by omega)).mp hwge
    have hid : (num_columns n - 1) * num_columns n + num_columns n
        = num_columns n * num_columns n := by
      cases h : num_columns n with
      | zero => omega
      | succ m => simp only [Nat.succ_sub_one]; ring
    rw [hweq]
    omega

theorem no_break (n : Nat) (hn : 1 ≤ n) :
    ∀ i, i < num_columns n →
      i * windows_per_column n (num_columns n) < n := by
  intro i hi
  calc i * windows_per_column n (num_columns n)
      ≤ (num_columns n - 1) * windows_per_column n (num_columns n) :=
        Nat.mul_le_mul_right _ (by omega)
    _ < n := last_col_lt n hn

theorem sum_slices (w : Nat) : ∀ (m n : Nat),
    ((List.range m).map (fun i => min ((i + 1) * w) n - i * w)).sum
      = min (m * w) n := by
  intro m
  induction m with
  | zero => intro n; simp
  | succ m ih =>
    intro n
    rw [List.range_succ, List.map_append, List.sum_append]
    simp only [List.map_cons, List.map_nil, List.sum_cons, List.sum_nil]
    rw [ih n]
    have h1 : (m + 1) * w = m * w + w := by ring
    omega

/-- The fields of `niri_ipc::Window` that the program reads. -/
structure Window where
  id : Nat
  workspace_id : Option Nat
deriving DecidableEq

/-- The fields of `niri_ipc::Workspace` that the program reads. -/
structure Workspace where
  id : Nat
  is_focused : Bool
deriving DecidableEq

/-- The `niri_ipc::ColumnDisplay` variant the program uses. -/
inductive ColumnDisplay
  | Normal
deriving DecidableEq

/-- The `niri_ipc::SizeChange` variant the program uses.
`column_width` is `100.0 / num_columns as f64` in the source; the `f64`
proportion is modelled exactly as a rational. -/
inductive SizeChange
  | SetProportion (proportion : ℚ)
deriving DecidableEq

/-- The `niri_ipc::Action` variants the program issues. -/
inductive Action
  | FocusWindow (id : Nat)
  | ExpelWindowFromColumn
  | FocusColumn (index : Nat)
  | SetColumnDisplay (display : ColumnDisplay)
  | SetWindowWidth (id : Option Nat) (change : SizeChange)
  | ConsumeWindowIntoColumn
  | FocusColumnFirst
deriving DecidableEq

/-- The `niri_ipc::Response` variants the program can receive. -/
inductive Response
  | Windows (windows : List Window)
  | Workspaces (workspaces : List Workspace)
  | Handled
deriving DecidableEq

/-- `niri_ipc::Reply = Result<Response, String>`: the compositor either
answers with a payload or reports a failure message. -/
abbrev Reply := Except String Response

/-- `NiriClient::get_windows`: the outer `Except` is the transport level
(`anyhow::Result`, the `?` on `self.execute`), the inner `Reply` is the
compositor's answer.  Only `Ok(Response::Windows(_))` is accepted. -/
def get_windows (r : Except String Reply) : Except String (List Window) :=
  match r with
  | Except.error e => Except.error e
  | Except.ok (Except.ok (Response.Windows windows)) => Except.ok windows
  | Except.ok _ => Except.error "Failed to get windows"

/-- `NiriClient::get_workspaces`, same shape as `get_windows`. -/
def get_workspaces (r : Except String Reply) : Except String (List Workspace) :=
  match r with
  | Except.error e => Except.error e
  | Except.ok (Except.ok (Response.Workspaces workspaces)) => Except.ok workspaces
  | Except.ok _ => Except.error "Failed to get workspaces"

/-- The console messages printed by `fn main`, one constructor per
`println!` site, carrying the interpolated values. -/
inductive Msg
  | NoWindowsFound
  | FoundWindows (count : Nat)
  | NoWindowsToArrange
  | CreatingColumns (cols per_col : Nat)
  | ColumnNoMore (idx : Nat)
  | BuildingColumn (idx first last : Nat)
  | Arranged (count cols : Nat)
deriving DecidableEq

/-- One externally visible step of `fn main`: a console print or a
compositor action request. -/
inductive Step
  | print (m : Msg)
  | act (a : Action)
deriving DecidableEq

/-- Flatten phase of `fn main`: for every window of the focused workspace,
in query order, `FocusWindow { id }` then `ExpelWindowFromColumn {}`. -/
def flattenSteps (ws : List Window) : List Step :=
  ws.flatMap (fun w => [Step.act (Action.FocusWindow w.id), Step.act Action.ExpelWindowFromColumn])

/-- Build phase of `fn main`: the `for column_idx in 0..num_columns` loop,
including the early `break` once `start_window >= window_count`. -/
def buildSteps (n w : Nat) (width : ℚ) : List Nat → List Step
  | [] => []
  | i :: rest =>
    if n ≤ i * w then [Step.print (Msg.ColumnNoMore i)]
    else
      Step.print (Msg.BuildingColumn i (i * w) (min ((i + 1) * w) n - 1)) ::
      Step.act (Action.FocusColumn (i + 1)) ::
      Step.act (Action.SetColumnDisplay ColumnDisplay.Normal) ::
      Step.act (Action.SetWindowWidth none (SizeChange.SetProportion width)) ::
      (List.replicate (min ((i + 1) * w) n - i * w - 1) (Step.act Action.ConsumeWindowIntoColumn)
        ++ buildSteps n w width rest)

/-- The print/action sequence of `fn main` once the focused workspace's
window list `cww` has been computed and found non-empty. -/
def mainPlan (cww : List Window) : List Step :=
  Step.print (Msg.FoundWindows cww.length) ::
  (if cww.length = 0 then [Step.print Msg.NoWindowsToArrange]
   else
     Step.print (Msg.CreatingColumns (num_columns cww.length)
       (windows_per_column cww.length (num_columns cww.length))) ::
     (flattenSteps cww
       ++ buildSteps cww.length (windows_per_column cww.length (num_columns cww.length))
            ((100 : ℚ) / (num_columns cww.length : ℚ))
            (List.range (num_columns cww.length))
       ++ [Step.act Action.FocusColumnFirst,
           Step.print (Msg.Arranged cww.length (num_columns cww.length))]))

/-- The compositor side of one run: the transport-level result of the two
queries and of the `k`-th action call. -/
structure Compositor where
  windowsReply : Except String Reply
  workspacesReply : Except String Reply
  actionReply : Nat → Except String Reply

/-- The externally visible outcome of a run: actions issued, messages
printed, and the process's `Result<()>`. -/
structure RunResult where
  actions : List Action
  msgs : List Msg
  exit : Except String Unit

/-- Execute the planned steps against the compositor: each action step is
one `let _ = client.action(..)?;` — the reply payload is discarded
(`let _`), but a transport-level failure (`?`) aborts the run. -/
def execSteps (reply : Nat → Except String Reply) : List Step → Nat → RunResult
  | [], _ => ⟨[], [], Except.ok ()⟩
  | Step.print m :: rest, k =>
    let r := execSteps reply rest k
    ⟨r.actions, m :: r.msgs, r.exit⟩
  | Step.act a :: rest, k =>
    match reply k with
    | Except.error e => ⟨[a], [], Except.error e⟩
    | Except.ok _ =>
      let r := execSteps reply rest (k + 1)
      ⟨a :: r.actions, r.msgs, r.exit⟩

/-- `fn main` after a successful socket connection, as a function of the
compositor's replies. -/
def mainRun (env : Compositor) : RunResult :=
  match get_windows env.windowsReply with
  | Except.error e => ⟨[], [], Except.error e⟩
  | Except.ok windows =>
    match get_workspaces env.workspacesReply with
    | Except.error e => ⟨[], [], Except.error e⟩
    | Except.ok workspaces =>
      match workspaces.find? (fun ws => ws.is_focused) with
      | none => ⟨[], [], Except.error "No focused workspace found"⟩
      | some current_workspace =>
        if (windows.filter (fun w => w.workspace_id == some current_workspace.id)).isEmpty then
          ⟨[], [Msg.NoWindowsFound], Except.ok ()⟩
        else
          execSteps env.actionReply
            (mainPlan (windows.filter (fun w => w.workspace_id == some current_workspace.id))) 0

/-- The action requests among a list of steps, in order. -/
def stepsActs (l : List Step) : List Action :=
  l.filterMap (fun s => match s with | Step.act a => some a | Step.print _ => none)

/-- The console messages among a list of steps, in order. -/
def stepsMsgs (l : List Step) : List Msg :=
  l.filterMap (fun s => match s with | Step.print m => some m | Step.act _ => none)

/-- Example query result: two windows on workspace 7, one unmapped. -/
def windows0 : List Window := [⟨1, some 7⟩, ⟨2, some 7⟩, ⟨3, none⟩]

/-- Example workspace list: workspace 7 is focused. -/
def workspaces0 : List Workspace := [⟨5, false⟩, ⟨7, true⟩]

/-- Example compositor whose action replies are failure payloads
(transport succeeds, the compositor rejects each action). -/
def env0 : Compositor :=
  ⟨Except.ok (Except.ok (Response.Windows windows0)),
   Except.ok (Except.ok (Response.Workspaces workspaces0)),
   fun _ => Except.ok (Except.error "rejected")⟩

/-- Same queries as `env0` but every action is acknowledged. -/
def env0' : Compositor :=
  ⟨env0.windowsReply, env0.workspacesReply,
   fun _ => Except.ok (Except.ok Response.Handled)⟩

/-- Example compositor whose only window lives on another workspace. -/
def env1 : Compositor :=
  ⟨Except.ok (Except.ok (Response.Windows [⟨3, some 9⟩])),
   Except.ok (Except.ok (Response.Workspaces [⟨7, true⟩])),
   fun _ => Except.ok (Except.ok Response.Handled)⟩

theorem mainRun_eq_branch (env : Compositor) (windows : List Window)
    (workspaces : List Workspace) (cw : Workspace)
    (h1 : get_windows env.windowsReply = Except.ok windows)
    (h2 : get_workspaces env.workspacesReply = Except.ok workspaces)
    (h3 : workspaces.find? (fun ws => ws.is_focused) = some cw) :
    mainRun env =
      if (windows.filter (fun w => w.workspace_id == some cw.id)).isEmpty then
        ⟨[], [Msg.NoWindowsFound], Except.ok ()⟩
      else
        execSteps env.actionReply
          (mainPlan (windows.filter (fun w => w.workspace_id == some cw.id))) 0 := by
  unfold mainRun
  rw [h1]
  dsimp only
  rw [h2]
  dsimp only
  rw [h3]

theorem execSteps_ok (reply : Nat → Except String Reply)
    (h : ∀ k, ∃ r, reply k = Except.ok r) :
    ∀ (steps : List Step) (k : Nat),
      execSteps reply steps k = ⟨stepsActs steps, stepsMsgs steps, Except.ok ()⟩ := by
  intro steps
  induction steps with
  | nil => intro k; rfl
  | cons s rest ih =>
    intro k
    cases s with
    | print m =>
      simp only [execSteps, ih k, stepsActs, stepsMsgs, List.filterMap_cons]
    | act a =>
      obtain ⟨r, hr⟩ := h k
      simp only [execSteps, hr, ih (k + 1), stepsActs, stepsMsgs, List.filterMap_cons]

theorem mem_actions_execSteps (reply : Nat → Except String Reply) (a : Action) :
    ∀ (steps : List Step) (k : Nat),
      a ∈ (execSteps reply steps k).actions → Step.act a ∈ steps := by
  intro steps
  induction steps with
  | nil => intro k h; simp [execSteps] at h
  | cons s rest ih =>
    intro k h
    cases s with
    | print m =>
      simp only [execSteps] at h
      exact List.mem_cons_of_mem _ (ih k h)
    | act b =>
      simp only [execSteps] at h
      cases hr : reply k with
      | error e =>
        rw [hr] at h
        simp at h
        rw [h]
        exact List.mem_cons_self _ _
      | ok r =>
        rw [hr] at h
        simp at h
        rcases h with h | h
        · rw [h]; exact List.mem_cons_self _ _
        · exact List.mem_cons_of_mem _ (ih (k + 1) h)

theorem mem_msgs_execSteps (reply : Nat → Except String Reply) (m : Msg) :
    ∀ (steps : List Step) (k : Nat),
      m ∈ (execSteps reply steps k).msgs → Step.print m ∈ steps := by
  intro steps
  induction steps with
  | nil => intro k h; simp [execSteps] at h
  | cons s rest ih =>
    intro k h
    cases s with
    | print m' =>
      simp only [execSteps] at h
      simp at h
      rcases h with h | h
      · rw [h]; exact List.mem_cons_self _ _
      · exact List.mem_cons_of_mem _ (ih k h)
    | act b =>
      simp only [execSteps] at h
      cases hr : reply k with
      | error e =>
        rw [hr] at h
        simp at h
      | ok r =>
        rw [hr] at h
        simp only at h
        exact List.mem_cons_of_mem _ (ih (k + 1) h)

theorem stepsActs_append (l1 l2 : List Step) :
    stepsActs (l1 ++ l2) = stepsActs l1 ++ stepsActs l2 := by
  unfold stepsActs
  exact List.filterMap_append _ _ _

theorem stepsActs_flattenSteps (ws : List Window) :
    stepsActs (flattenSteps ws)
      = ws.flatMap (fun w => [Action.FocusWindow w.id, Action.ExpelWindowFromColumn]) := by
  induction ws with
  | nil => rfl
  | cons w rest ih =>
    simp only [flattenSteps, List.flatMap_cons] at ih ⊢
    rw [← ih]
    rfl

theorem stepsActs_replicate (k : Nat) (a : Action) :
    stepsActs (List.replicate k (Step.act a)) = List.replicate k a := by
  induction k with
  | zero => rfl
  | succ k ih =>
    simp only [List.replicate_succ, stepsActs, List.filterMap_cons] at ih ⊢
    rw [ih]

theorem stepsActs_buildSteps (n w : Nat) (width : ℚ) :
    ∀ l : List Nat, (∀ i ∈ l, i * w < n) →
      stepsActs (buildSteps n w width l)
        = l.flatMap (fun i =>
            Action.FocusColumn (i + 1) ::
            Action.SetColumnDisplay ColumnDisplay.Normal ::
            Action.SetWindowWidth none (SizeChange.SetProportion width) ::
            List.replicate (min ((i + 1) * w) n - i * w - 1)
              Action.ConsumeWindowIntoColumn) := by
  intro l
  induction l with
  | nil => intro _; rfl
  | cons i rest ih =>
    intro h
    have hi : i * w < n := h i (List.mem_cons_self i rest)
    have ih' := ih (fun j hj => h j (List.mem_cons_of_mem i hj))
    have hrep := stepsActs_replicate (min ((i + 1) * w) n - i * w - 1)
      Action.ConsumeWindowIntoColumn
    rw [buildSteps, if_neg (show ¬ n ≤ i * w by omega), List.flatMap_cons]
    unfold stepsActs
    simp only [List.filterMap_cons]
    rw [List.filterMap_append]
    unfold stepsActs at ih' hrep
    rw [hrep, ih']
    simp

theorem no_print_in_flattenSteps (m : Msg) :
    ∀ ws : List Window, Step.print m ∉ flattenSteps ws := by
  intro ws
  induction ws with
  | nil => simp [flattenSteps]
  | cons w rest ih =>
    intro h
    rw [flattenSteps, List.flatMap_cons, List.cons_append, List.cons_append,
      List.nil_append] at h
    rcases List.mem_cons.mp h with h1 | h2
    · exact Step.noConfusion h1
    · rcases List.mem_cons.mp h2 with h3 | h4
      · exact Step.noConfusion h3
      · exact ih h4

theorem focusWindow_in_flattenSteps (id : Nat) :
    ∀ ws : List Window, Step.act (Action.FocusWindow id) ∈ flattenSteps ws →
      ∃ w, w ∈ ws ∧ w.id = id := by
  intro ws
  induction ws with
  | nil => intro h; exact absurd h (by simp [flattenSteps])
  | cons w rest ih =>
    intro h
    rw [flattenSteps, List.flatMap_cons, List.cons_append, List.cons_append,
      List.nil_append] at h
    rcases List.mem_cons.mp h with h1 | h2
    · have ha : Action.FocusWindow id = Action.FocusWindow w.id := by injection h1
      have hid : id = w.id := by injection ha
      exact ⟨w, List.mem_cons_self w rest, hid.symm⟩
    · rcases List.mem_cons.mp h2 with h3 | h4
      · exact absurd h3 (by intro hc; injection hc with hc'; exact Action.noConfusion hc')
      · obtain ⟨w', hw1, hw2⟩ := ih h4
        exact ⟨w', List.mem_cons_of_mem w hw1, hw2⟩

theorem no_focusWindow_in_buildSteps (n w : Nat) (width : ℚ) (id : Nat) :
    ∀ l : List Nat, Step.act (Action.FocusWindow id) ∉ buildSteps n w width l := by
  intro l
  induction l with
  | nil => simp [buildSteps]
  | cons i rest ih =>
    intro h
    rw [buildSteps] at h
    by_cases hc : n ≤ i * w
    · rw [if_pos hc] at h
      have h1 := List.mem_singleton.mp h
      exact Step.noConfusion h1
    · rw [if_neg hc] at h
      rcases List.mem_cons.mp h with h1 | h
      · exact Step.noConfusion h1
      rcases List.mem_cons.mp h with h1 | h
      · injection h1 with h1'; exact Action.noConfusion h1'
      rcases List.mem_cons.mp h with h1 | h
      · injection h1 with h1'; exact Action.noConfusion h1'
      rcases List.mem_cons.mp h with h1 | h
      · injection h1 with h1'; exact Action.noConfusion h1'
      rcases List.mem_append.mp h with h1 | h1
      · have h2 := List.eq_of_mem_replicate h1
        injection h2 with h2'; exact Action.noConfusion h2'
      · exact ih h1

theorem no_noWindowsToArrange_in_buildSteps (n w : Nat) (width : ℚ) :
    ∀ l : List Nat, Step.print Msg.NoWindowsToArrange ∉ buildSteps n w width l := by
  intro l
  induction l with
  | nil => simp [buildSteps]
  | cons i rest ih =>
    intro h
    rw [buildSteps] at h
    by_cases hc : n ≤ i * w
    · rw [if_pos hc] at h
      have h1 := List.mem_singleton.mp h
      injection h1 with h1'
      exact Msg.noConfusion h1'
    · rw [if_neg hc] at h
      rcases List.mem_cons.mp h with h1 | h
      · injection h1 with h1'; exact Msg.noConfusion h1'
      rcases List.mem_cons.mp h with h1 | h
      · exact Step.noConfusion h1
      rcases List.mem_cons.mp h with h1 | h
      · exact Step.noConfusion h1
      rcases List.mem_cons.mp h with h1 | h
      · exact Step.noConfusion h1
      rcases List.mem_append.mp h with h1 | h1
      · have h2 := List.eq_of_mem_replicate h1
        exact Step.noConfusion h2
      · exact ih h1

theorem stepsActs_cons_print (m : Msg) (l : List Step) :
    stepsActs (Step.print m :: l) = stepsActs l := by
  simp [stepsActs]

theorem stepsActs_cons_act (a : Action) (l : List Step) :
    stepsActs (Step.act a :: l) = a :: stepsActs l := by
  simp [stepsActs]

theorem stepsActs_mainPlan (cww : List Window) (h : cww ≠ []) :
    stepsActs (mainPlan cww) =
      cww.flatMap (fun wi => [Action.FocusWindow wi.id, Action.ExpelWindowFromColumn])
      ++ (List.range (num_columns cww.length)).flatMap (fun i =>
           Action.FocusColumn (i + 1) ::
           Action.SetColumnDisplay ColumnDisplay.Normal ::
           Action.SetWindowWidth none
             (SizeChange.SetProportion ((100 : ℚ) / (num_columns cww.length : ℚ))) ::
           List.replicate
             (min ((i + 1) * windows_per_column cww.length (num_columns cww.length))
                cww.length
               - i * windows_per_column cww.length (num_columns cww.length) - 1)
             Action.ConsumeWindowIntoColumn)
      ++ [Action.FocusColumnFirst] := by
  have hn : 1 ≤ cww.length := List.length_pos.mpr h
  rw [mainPlan, if_neg (by omega)]
  rw [stepsActs_cons_print, stepsActs_cons_print, stepsActs_append, stepsActs_append,
    stepsActs_flattenSteps,
    stepsActs_buildSteps cww.length (windows_per_column cww.length (num_columns cww.length))
      ((100 : ℚ) / (num_columns cww.length : ℚ)) (List.range (num_columns cww.length))
      (fun i hi => no_break cww.length hn i (List.mem_range.mp hi))]
  rfl

theorem mainRun_windows_error (env : Compositor) (e : String)
    (h : get_windows env.windowsReply = Except.error e) :
    mainRun env = ⟨[], [], Except.error e⟩ := by
  unfold mainRun
  rw [h]

theorem mainRun_workspaces_error (env : Compositor) (windows : List Window) (e : String)
    (h1 : get_windows env.windowsReply = Except.ok windows)
    (h2 : get_workspaces env.workspacesReply = Except.error e) :
    mainRun env = ⟨[], [], Except.error e⟩ := by
  unfold mainRun
  rw [h1]
  dsimp only
  rw [h2]

theorem mainRun_no_focused (env : Compositor) (windows : List Window)
    (workspaces : List Workspace)
    (h1 : get_windows env.windowsReply = Except.ok windows)
    (h2 : get_workspaces env.workspacesReply = Except.ok workspaces)
    (h3 : workspaces.find? (fun ws => ws.is_focused) = none) :
    mainRun env = ⟨[], [], Except.error "No focused workspace found"⟩ := by
  unfold mainRun
  rw [h1]
  dsimp only
  rw [h2]
  dsimp only
  rw [h3]

/-- C2: for every `n ≥ 1` the column-count function returns exactly
`min(ceil(sqrt(n)), n)` — where `ceil_sqrt n` is characterised as the
least `k` with `n ≤ k²` — and its result is `≥ 1` and `≤ n`. -/
theorem spec_num_columns (n : Nat) (h : 1 ≤ n) :
    num_columns n = min (ceil_sqrt n) n ∧
    n ≤ ceil_sqrt n * ceil_sqrt n ∧
    (∀ k, n ≤ k * k → ceil_sqrt n ≤ k) ∧
    1 ≤ num_columns n ∧ num_columns n ≤ n := by
  refine ⟨?_, (ceil_sqrt_spec n).1, (ceil_sqrt_spec n).2, num_columns_pos n,
    num_columns_le n h⟩
  unfold num_columns
  rw [if_neg (by omega)]

theorem spec_num_columns_witness :
    1 ≤ 5 ∧
    (num_columns 5 = min (ceil_sqrt 5) 5 ∧
     5 ≤ ceil_sqrt 5 * ceil_sqrt 5 ∧
     (∀ k, 5 ≤ k * k → ceil_sqrt 5 ≤ k) ∧
     1 ≤ num_columns 5 ∧ num_columns 5 ≤ 5) :=
  ⟨by decide, spec_num_columns 5 (by decide)⟩

/-- C7: the column-count function returns at least 1 for every input,
and exactly 1 for `n = 0`; hence the two divisors derived from it (the
ceiling division and the width `100 / c`) are never zero. -/
theorem spec_no_division_by_zero :
    (∀ n, 1 ≤ num_columns n) ∧ num_columns 0 = 1 ∧
    (∀ n, (num_columns n : ℚ) ≠ 0) := by
  refine ⟨num_columns_pos, rfl, fun n => ?_⟩
  have h := num_columns_pos n
  exact Nat.cast_ne_zero.mpr (by omega)

/-- C8: for every `n > 1`, `columns(columns(n))` is well-defined and
`≤ columns(n)`. -/
theorem spec_self_application (n : Nat) (h : 1 < n) :
    num_columns (num_columns n) ≤ num_columns n :=
  num_columns_le (num_columns n) (num_columns_pos n)

theorem spec_self_application_witness :
    1 < 5 ∧ num_columns (num_columns 5) ≤ num_columns 5 :=
  ⟨by decide, spec_self_application 5 (by decide)⟩

/-- C3: with `c = columns(n)` and `w = ceil(n / c)`, column `i` receives
the slice `[i*w, min((i+1)*w, n))`; the slice sizes over all issued
columns sum to exactly `n`; no issued column's slice is empty; and the
build loop stops issuing as soon as `i*w ≥ n`. -/
theorem spec_distribution (n : Nat) (h : 1 ≤ n) :
    (((List.range (num_columns n)).map
        (fun i => min ((i + 1) * windows_per_column n (num_columns n)) n
          - i * windows_per_column n (num_columns n))).sum = n) ∧
    (∀ i, i < num_columns n →
      i * windows_per_column n (num_columns n) < n ∧
      0 < min ((i + 1) * windows_per_column n (num_columns n)) n
          - i * windows_per_column n (num_columns n)) ∧
    (∀ (width : ℚ) (i : Nat) (rest : List Nat),
      n ≤ i * windows_per_column n (num_columns n) →
      buildSteps n (windows_per_column n (num_columns n)) width (i :: rest)
        = [Step.print (Msg.ColumnNoMore i)]) := by
  refine ⟨?_, ?_, ?_⟩
  · rw [sum_slices]
    have hle := le_cols_mul_wpc n (num_columns n) (num_columns_pos n)
    omega
  · intro i hi
    have hib := no_break n h i hi
    have hw1 := wpc_pos n (num_columns n) h (num_columns_pos n)
    refine ⟨hib, ?_⟩
    have hexp : (i + 1) * windows_per_column n (num_columns n)
        = i * windows_per_column n (num_columns n)
          + windows_per_column n (num_columns n) := by ring
    omega
  · intro width i rest hge
    rw [buildSteps, if_pos hge]

theorem spec_distribution_witness :
    1 ≤ 5 ∧
    ((((List.range (num_columns 5)).map
        (fun i => min ((i + 1) * windows_per_column 5 (num_columns 5)) 5
          - i * windows_per_column 5 (num_columns 5))).sum = 5) ∧
     (∀ i, i < num_columns 5 →
       i * windows_per_column 5 (num_columns 5) < 5 ∧
       0 < min ((i + 1) * windows_per_column 5 (num_columns 5)) 5
           - i * windows_per_column 5 (num_columns 5)) ∧
     (∀ (width : ℚ) (i : Nat) (rest : List Nat),
       5 ≤ i * windows_per_column 5 (num_columns 5) →
       buildSteps 5 (windows_per_column 5 (num_columns 5)) width (i :: rest)
         = [Step.print (Msg.ColumnNoMore i)])) :=
  ⟨by decide, spec_distribution 5 (by decide)⟩

/-- C5: the query wrappers return the typed list only when the reply is a
success payload of the matching tag; a failure payload or a mismatched
tag yields an error, never a coerced value. -/
theorem spec_query_reply_validation :
    (∀ (r : Reply) (ws : List Window),
        get_windows (Except.ok r) = Except.ok ws ↔ r = Except.ok (Response.Windows ws)) ∧
    (∀ (r : Reply) (wss : List Workspace),
        get_workspaces (Except.ok r) = Except.ok wss
          ↔ r = Except.ok (Response.Workspaces wss)) ∧
    (∀ e : String,
        get_windows (Except.ok (Except.error e)) = Except.error "Failed to get windows" ∧
        get_workspaces (Except.ok (Except.error e))
          = Except.error "Failed to get workspaces") ∧
    (∀ wss : List Workspace,
        get_windows (Except.ok (Except.ok (Response.Workspaces wss)))
          = Except.error "Failed to get windows") ∧
    (∀ ws : List Window,
        get_workspaces (Except.ok (Except.ok (Response.Windows ws)))
          = Except.error "Failed to get workspaces") := by
  refine ⟨?_, ?_, fun e => ⟨rfl, rfl⟩, fun wss => rfl, fun ws => rfl⟩
  · intro r ws
    cases r with
    | error e => simp [get_windows]
    | ok resp => cases resp <;> simp [get_windows]
  · intro r wss
    cases r with
    | error e => simp [get_workspaces]
    | ok resp => cases resp <;> simp [get_workspaces]

/-- C6: when both queries succeed, a focused workspace exists and no
window of the query result belongs to it, the run issues no action,
reports the "no windows" message and exits successfully. -/
theorem spec_empty_workspace (env : Compositor)
    (windows : List Window) (workspaces : List Workspace) (cw : Workspace)
    (h1 : get_windows env.windowsReply = Except.ok windows)
    (h2 : get_workspaces env.workspacesReply = Except.ok workspaces)
    (h3 : workspaces.find? (fun ws => ws.is_focused) = some cw)
    (h4 : windows.filter (fun w => w.workspace_id == some cw.id) = []) :
    mainRun env = ⟨[], [Msg.NoWindowsFound], Except.ok ()⟩ := by
  rw [mainRun_eq_branch env windows workspaces cw h1 h2 h3, if_pos (by simp [h4])]

/-- C1: in a run where both queries succeed, a focused workspace exists,
its window list is non-empty and no protocol call fails at the transport
level, the issued action sequence is exactly: per window `FocusWindow`
then `ExpelWindowFromColumn`; then per column `i` `FocusColumn (i+1)`,
`SetColumnDisplay Normal`, `SetWindowWidth` with proportion `100 / c`,
then slice-size-minus-one `ConsumeWindowIntoColumn`; then one
`FocusColumnFirst`. -/
theorem spec_flatten_then_build_sequence (env : Compositor)
    (windows : List Window) (workspaces : List Workspace) (cw : Workspace)
    (n c w : Nat)
    (h1 : get_windows env.windowsReply = Except.ok windows)
    (h2 : get_workspaces env.workspacesReply = Except.ok workspaces)
    (h3 : workspaces.find? (fun ws => ws.is_focused) = some cw)
    (h4 : windows.filter (fun wi => wi.workspace_id == some cw.id) ≠ [])
    (h5 : ∀ k, ∃ r, env.actionReply k = Except.ok r)
    (hn : n = (windows.filter (fun wi => wi.workspace_id == some cw.id)).length)
    (hc : c = num_columns n)
    (hw : w = windows_per_column n c) :
    (mainRun env).actions =
      (windows.filter (fun wi => wi.workspace_id == some cw.id)).flatMap
        (fun wi => [Action.FocusWindow wi.id, Action.ExpelWindowFromColumn])
      ++ (List.range c).flatMap (fun i =>
           Action.FocusColumn (i + 1) ::
           Action.SetColumnDisplay ColumnDisplay.Normal ::
           Action.SetWindowWidth none (SizeChange.SetProportion ((100 : ℚ) / (c : ℚ))) ::
           List.replicate (min ((i + 1) * w) n - i * w - 1)
             Action.ConsumeWindowIntoColumn)
      ++ [Action.FocusColumnFirst] ∧
    (mainRun env).exit = Except.ok () := by
  subst hw hc hn
  rw [mainRun_eq_branch env windows workspaces cw h1 h2 h3,
    if_neg (by simpa [List.isEmpty_iff] using h4)]
  rw [execSteps_ok env.actionReply h5 _ 0]
  exact ⟨stepsActs_mainPlan _ h4, rfl⟩

theorem spec_flatten_then_build_sequence_witness :
    windows0.filter (fun wi => wi.workspace_id == some 7) ≠ [] ∧
    ((mainRun env0).actions =
      (windows0.filter (fun wi => wi.workspace_id == some 7)).flatMap
        (fun wi => [Action.FocusWindow wi.id, Action.ExpelWindowFromColumn])
      ++ (List.range (num_columns 2)).flatMap (fun i =>
           Action.FocusColumn (i + 1) ::
           Action.SetColumnDisplay ColumnDisplay.Normal ::
           Action.SetWindowWidth none
             (SizeChange.SetProportion ((100 : ℚ) / (num_columns 2 : ℚ))) ::
           List.replicate
             (min ((i + 1) * windows_per_column 2 (num_columns 2)) 2
               - i * windows_per_column 2 (num_columns 2) - 1)
             Action.ConsumeWindowIntoColumn)
      ++ [Action.FocusColumnFirst] ∧
    (mainRun env0).exit = Except.ok ()) :=
  ⟨by decide,
   spec_flatten_then_build_sequence env0 windows0 workspaces0 ⟨7, true⟩
     2 (num_columns 2) (windows_per_column 2 (num_columns 2))
     rfl rfl rfl (by decide) (fun k => ⟨Except.error "rejected", rfl⟩) rfl rfl rfl⟩

/-- C4: if every action call succeeds at the transport level, the run's
outcome is independent of the reply payloads (failure replies are
discarded), every planned action is still issued and the run exits
successfully. -/
theorem spec_action_failures_nonfatal (env env' : Compositor)
    (windows : List Window) (workspaces : List Workspace) (cw : Workspace)
    (heq1 : env'.windowsReply = env.windowsReply)
    (heq2 : env'.workspacesReply = env.workspacesReply)
    (h1 : get_windows env.windowsReply = Except.ok windows)
    (h2 : get_workspaces env.workspacesReply = Except.ok workspaces)
    (h3 : workspaces.find? (fun ws => ws.is_focused) = some cw)
    (h5 : ∀ k, ∃ r, env.actionReply k = Except.ok r)
    (h5' : ∀ k, ∃ r, env'.actionReply k = Except.ok r) :
    mainRun env = mainRun env' ∧ (mainRun env).exit = Except.ok () := by
  have hb := mainRun_eq_branch env windows workspaces cw h1 h2 h3
  have hb' := mainRun_eq_branch env' windows workspaces cw
    (by rw [heq1]; exact h1) (by rw [heq2]; exact h2) h3
  by_cases he : (windows.filter (fun w => w.workspace_id == some cw.id)).isEmpty
  · rw [hb, hb', if_pos he, if_pos he]
    exact ⟨rfl, rfl⟩
  · rw [hb, hb', if_neg he, if_neg he,
      execSteps_ok env.actionReply h5 _ 0, execSteps_ok env'.actionReply h5' _ 0]
    exact ⟨rfl, rfl⟩

theorem spec_action_failures_nonfatal_witness :
    mainRun env0 = mainRun env0' ∧ (mainRun env0).exit = Except.ok () :=
  spec_action_failures_nonfatal env0 env0' windows0 workspaces0 ⟨7, true⟩
    rfl rfl rfl rfl rfl
    (fun k => ⟨Except.error "rejected", rfl⟩)
    (fun k => ⟨Except.ok Response.Handled, rfl⟩)

theorem spec_empty_workspace_witness :
    (([⟨3, some 9⟩] : List Window).filter (fun w => w.workspace_id == some 7) = []) ∧
    mainRun env1 = ⟨[], [Msg.NoWindowsFound], Except.ok ()⟩ :=
  ⟨by decide,
   spec_empty_workspace env1 [⟨3, some 9⟩] [⟨7, true⟩] ⟨7, true⟩ rfl rfl rfl (by decide)⟩

/-- C9: every `FocusWindow` action issued carries the id of a window of
the query result whose `workspace_id` equals `Some` of the focused
workspace's id; unmapped windows and windows of other workspaces are
never focused. -/
theorem spec_focus_only_focused_workspace (env : Compositor)
    (windows : List Window) (workspaces : List Workspace) (cw : Workspace)
    (h1 : get_windows env.windowsReply = Except.ok windows)
    (h2 : get_workspaces env.workspacesReply = Except.ok workspaces)
    (h3 : workspaces.find? (fun ws => ws.is_focused) = some cw)
    (id : Nat)
    (hmem : Action.FocusWindow id ∈ (mainRun env).actions) :
    ∃ w, w ∈ windows ∧ w.id = id ∧ w.workspace_id = some cw.id := by
  rw [mainRun_eq_branch env windows workspaces cw h1 h2 h3] at hmem
  by_cases he : (windows.filter (fun w => w.workspace_id == some cw.id)).isEmpty
  · rw [if_pos he] at hmem
    simp at hmem
  · rw [if_neg he] at hmem
    have hstep := mem_actions_execSteps env.actionReply _ _ 0 hmem
    have hne : windows.filter (fun w => w.workspace_id == some cw.id) ≠ [] := by
      intro h0
      exact he (by simp [h0])
    have hlen : (windows.filter (fun w => w.workspace_id == some cw.id)).length ≠ 0 := by
      intro h0
      exact hne (List.length_eq_zero.mp h0)
    rw [mainPlan] at hstep
    rcases List.mem_cons.mp hstep with h' | hstep
    · exact absurd h' (fun hc => Step.noConfusion hc)
    rw [if_neg hlen] at hstep
    rcases List.mem_cons.mp hstep with h' | hstep
    · exact absurd h' (fun hc => Step.noConfusion hc)
    rcases List.mem_append.mp hstep with hstep | hlast
    · rcases List.mem_append.mp hstep with hflat | hbuild
      · obtain ⟨w, hw1, hw2⟩ := focusWindow_in_flattenSteps id _ hflat
        have hmf := List.mem_filter.mp hw1
        refine ⟨w, hmf.1, hw2, ?_⟩
        simpa using hmf.2
      · exact absurd hbuild (no_focusWindow_in_buildSteps _ _ _ id _)
    · rcases List.mem_cons.mp hlast with h' | hlast
      · exact absurd h' (by intro hc; injection hc with hc'; exact Action.noConfusion hc')
      rcases List.mem_cons.mp hlast with h' | hlast
      · exact absurd h' (fun hc => Step.noConfusion hc)
      · simp at hlast

theorem spec_focus_only_focused_workspace_witness :
    Action.FocusWindow 1 ∈ (mainRun env0).actions ∧
    ∃ w, w ∈ windows0 ∧ w.id = 1 ∧ w.workspace_id = some 7 :=
  ⟨by decide,
   spec_focus_only_focused_workspace env0 windows0 workspaces0 ⟨7, true⟩
     rfl rfl rfl 1 (by decide)⟩

/-- C10: the second zero-window check ("No windows to arrange") is dead
code — in no run is its message ever reported, because the emptiness
early-return already guarantees a positive window count there. -/
theorem spec_dead_zero_check (env : Compositor) :
    Msg.NoWindowsToArrange ∉ (mainRun env).msgs := by
  intro hmem
  cases hwr : get_windows env.windowsReply with
  | error e =>
    rw [mainRun_windows_error env e hwr] at hmem
    simp at hmem
  | ok windows =>
    cases hpr : get_workspaces env.workspacesReply with
    | error e =>
      rw [mainRun_workspaces_error env windows e hwr hpr] at hmem
      simp at hmem
    | ok workspaces =>
      cases hf : workspaces.find? (fun ws => ws.is_focused) with
      | none =>
        rw [mainRun_no_focused env windows workspaces hwr hpr hf] at hmem
        simp at hmem
      | some cw =>
        rw [mainRun_eq_branch env windows workspaces cw hwr hpr hf] at hmem
        by_cases he : (windows.filter (fun w => w.workspace_id == some cw.id)).isEmpty
        · rw [if_pos he] at hmem
          have := List.mem_singleton.mp hmem
          exact Msg.noConfusion this
        · rw [if_neg he] at hmem
          have hstep := mem_msgs_execSteps env.actionReply _ _ 0 hmem
          have hne : windows.filter (fun w => w.workspace_id == some cw.id) ≠ [] := by
            intro h0
            exact he (by simp [h0])
          have hlen : (windows.filter (fun w => w.workspace_id == some cw.id)).length ≠ 0 := by
            intro h0
            exact hne (List.length_eq_zero.mp h0)
          rw [mainPlan] at hstep
          rcases List.mem_cons.mp hstep with h' | hstep
          · injection h' with h''
            exact Msg.noConfusion h''
          rw [if_neg hlen] at hstep
          rcases List.mem_cons.mp hstep with h' | hstep
          · injection h' with h''
            exact Msg.noConfusion h''
          rcases List.mem_append.mp hstep with hstep | hlast
          · rcases List.mem_append.mp hstep with hflat | hbuild
            · exact no_print_in_flattenSteps _ _ hflat
            · exact no_noWindowsToArrange_in_buildSteps _ _ _ _ hbuild
          · rcases List.mem_cons.mp hlast with h' | hlast
            · exact Step.noConfusion h'
            rcases List.mem_cons.mp hlast with h' | hlast
            · injection h' with h''
              exact Msg.noConfusion h''
            · simp at hlast

end NiriCompact
